import Mathlib

/-
Shallow embedding of the ESG preprocessing pipeline
(Preprocessing/preprocessing_pipeline.py) and proofs about it.

Modelling conventions:
* A pandas DataFrame is a list of named, dtyped columns; a cell is
  `Option CellVal`, `none` standing for NaN / missing.
* Machine floats are modelled by `ℚ`; the statistical library calls that
  the pipeline merely sequences (scikit-learn scalers, PowerTransformer,
  OneHotEncoder, PCA, TSNE and scipy's skew) are out-of-scope external
  collaborators and are passed in as an `Externals` record of functions,
  so every pipeline-level decision (gating, ordering, bookkeeping) stays
  concrete and executable.
* `inplace` pandas mutation is modelled twice: once purely (the value a
  reference holds afterwards) and once against an explicit object store
  (`Store`), to state frame conditions about the caller's dataframe.
-/

namespace ESGPipeline

/-- A single cell value: a number or a piece of text. -/
inductive CellVal
  | num (q : ℚ)
  | str (s : String)
deriving DecidableEq

/-- A cell of a dataframe; `none` models NaN / missing. -/
abbrev Cell := Option CellVal

/-- Pandas column dtype, collapsed to the two classes the pipeline
distinguishes via `select_dtypes`. -/
inductive Dtype
  | numeric
  | object
deriving DecidableEq

/-- One named column of a dataframe. -/
structure Column where
  name : String
  dtype : Dtype
  values : List Cell
deriving DecidableEq

/-- A dataframe: ordered list of columns (rows are positional). -/
abbrev DataFrame := List Column

/-- Row count of a dataframe (length of its first column, 0 if empty). -/
def nrows (df : DataFrame) : ℕ :=
  match df with
  | [] => 0
  | c :: _ => c.values.length

/-- Column names, in order. -/
def DataFrame.colNames (df : DataFrame) : List String :=
  df.map Column.name

/-- Number of missing cells in a column (`isnull().sum()` for one column). -/
def Column.missingCount (c : Column) : ℕ :=
  (c.values.filter Option.isNone).length

/-- Total number of missing cells (`df.isnull().sum().sum()`). -/
def DataFrame.totalMissing (df : DataFrame) : ℕ :=
  (df.map Column.missingCount).sum

/-- Names of columns that contain at least one missing value, in dataframe
order (`missing_counts[missing_counts > 0]`). -/
def missingColsOf (df : DataFrame) : List String :=
  (df.filter (fun c => c.missingCount != 0)).map Column.name

/-- Names of the columns of a given dtype, in dataframe order
(`df.select_dtypes(...)`). -/
def selectDtypeCols (df : DataFrame) (t : Dtype) : List String :=
  (df.filter (fun c => c.dtype == t)).map Column.name

/-- `df[cols]`: sub-dataframe of the named columns, in the requested
order (a name not present is dropped; the pipeline only selects
columns it has seen). -/
def selectCols (df : DataFrame) (cols : List String) : DataFrame :=
  cols.filterMap (fun nm => df.find? (fun c => c.name == nm))

/-- The configuration keys the pipeline consults (defaults in
`_load_config`).  `identifier_features` is
`feature_categories['identifier_features']`. -/
structure Config where
  missing_strategy_numerical : String
  missing_strategy_categorical : String
  scaling_method : String
  apply_power_transform : Bool
  skewness_threshold : ℚ
  categorical_encoding : String
  drop_first_category : Bool
  identifier_features : List String
  apply_pca : Bool
  pca_n_components_is_float : Bool
  pca_n_components : ℚ
  pca_min_components : ℕ
  apply_tsne : Bool
  tsne_n_components : ℕ
  tsne_perplexity : ℕ
  tsne_random_state : ℕ
  check_missing_values : Bool
  check_feature_ranges : Bool
  check_shape_consistency : Bool
deriving DecidableEq

/-- The two automatically identified lists `_identify_feature_types`
computes and the rest of the pipeline consumes. -/
structure FeatureTypes where
  numerical_features : List String
  categorical_features_available : List String
deriving DecidableEq

/-- `_identify_feature_types`: numeric-dtype columns minus the configured
identifier columns are numerical; object-dtype columns are categorical
(identifiers are not removed from the categorical list). -/
def identify_feature_types (cfg : Config) (df : DataFrame) : FeatureTypes :=
  let numericalCols := selectDtypeCols df Dtype.numeric
  let categoricalCols := selectDtypeCols df Dtype.object
  { numerical_features :=
      numericalCols.filter (fun c => !(cfg.identifier_features.contains c))
    categorical_features_available := categoricalCols }

/- ---------- Column statistics used to pick imputation fill values ---------- -/

/-- The numeric (non-missing) values of a column, in order; pandas
statistics skip NaN. -/
def numericVals (c : Column) : List ℚ :=
  c.values.filterMap (fun x =>
    match x with
    | some (CellVal.num q) => some q
    | _ => none)

/-- The text (non-missing) values of a column, in order. -/
def stringVals (c : Column) : List String :=
  c.values.filterMap (fun x =>
    match x with
    | some (CellVal.str s) => some s
    | _ => none)

/-- Insert into a sorted list of rationals. -/
def insertSorted (q : ℚ) : List ℚ → List ℚ
  | [] => [q]
  | x :: xs => if q ≤ x then q :: x :: xs else x :: insertSorted q xs

/-- Sort a list of rationals ascending (insertion sort). -/
def sortQ (l : List ℚ) : List ℚ :=
  l.foldr insertSorted []

/-- Pandas `Series.median()` over the non-missing values: middle element
of the sorted list, or the average of the two middle elements; `none`
(NaN) on an empty list. -/
def medianQ (l : List ℚ) : Option ℚ :=
  let s := sortQ l
  let n := s.length
  if n = 0 then none
  else if n % 2 = 1 then some (s.getD (n / 2) 0)
  else some ((s.getD (n / 2 - 1) 0 + s.getD (n / 2) 0) / 2)

/-- Pandas `Series.mean()` over the non-missing values; `none` on empty. -/
def meanQ (l : List ℚ) : Option ℚ :=
  if l.length = 0 then none else some (l.sum / (l.length : ℚ))

/-- How often a rational occurs in a list. -/
def countQ (l : List ℚ) (q : ℚ) : ℕ :=
  (l.filter (fun x => x == q)).length

/-- How often a string occurs in a list. -/
def countStr (l : List String) (s : String) : ℕ :=
  (l.filter (fun x => x == s)).length

/-- Pandas `Series.mode().iloc[0]` for a numeric column: the smallest
among the most frequent non-missing values; `none` when the column has
no non-missing values (`mode()` is empty). -/
def modeQ (l : List ℚ) : Option ℚ :=
  match l with
  | [] => none
  | x :: xs =>
    let maxCnt := ((x :: xs).map (countQ (x :: xs))).foldr max 0
    let cands := (x :: xs).filter (fun q => countQ (x :: xs) q == maxCnt)
    match cands with
    | [] => none
    | c :: cs => some (cs.foldl min c)

/-- Smaller of two strings in lexicographic order. -/
def minStr (a b : String) : String :=
  if a < b then a else b

/-- Pandas `Series.mode().iloc[0]` for an object column: the
lexicographically smallest among the most frequent non-missing values. -/
def modeStr (l : List String) : Option String :=
  match l with
  | [] => none
  | x :: xs =>
    let maxCnt := ((x :: xs).map (countStr (x :: xs))).foldr max 0
    let cands := (x :: xs).filter (fun s => countStr (x :: xs) s == maxCnt)
    match cands with
    | [] => none
    | c :: cs => some (cs.foldl minStr c)

/- ---------- Missing-value imputation (`_handle_missing_values`) ---------- -/

/-- `Series.fillna(v)`: replace every missing cell by `v`. -/
def Column.fillna (c : Column) (v : CellVal) : Column :=
  { c with values := c.values.map (fun x =>
      match x with
      | none => some v
      | some w => some w) }

/-- Fill value for a numerical column: median / mean (NaN — i.e. `none`
— when the column has no observed number, making the later `fillna` a
no-op, exactly as `fillna(NaN)` is), any other strategy name falls back
to the mode with default 0. -/
def numericFillValue (strategy : String) (c : Column) : Option CellVal :=
  if strategy == "median" then (medianQ (numericVals c)).map CellVal.num
  else if strategy == "mean" then (meanQ (numericVals c)).map CellVal.num
  else some (CellVal.num ((modeQ (numericVals c)).getD 0))

/-- Fill value for a categorical column: most frequent value with
fallback "Unknown", any other strategy name always "Unknown". -/
def categoricalFillValue (strategy : String) (c : Column) : CellVal :=
  if strategy == "most_frequent" then
    CellVal.str ((modeStr (stringVals c)).getD "Unknown")
  else CellVal.str "Unknown"

/-- The per-column body of `_handle_missing_values`: a column with
missing values that appears in the numerical list gets the numerical
fill (when one is defined), one in the categorical list gets the
categorical fill (computed after a possible numerical fill, as the code
mutates `df_clean` column by column); all other columns pass through
untouched. -/
def imputeColumn (cfg : Config) (ft : FeatureTypes) (missingNames : List String)
    (c : Column) : Column :=
  let c1 :=
    if missingNames.contains c.name && ft.numerical_features.contains c.name then
      match numericFillValue cfg.missing_strategy_numerical c with
      | some v => c.fillna v
      | none => c
    else c
  if missingNames.contains c.name && ft.categorical_features_available.contains c.name then
    c1.fillna (categoricalFillValue cfg.missing_strategy_categorical c1)
  else c1

/-- A processing-log record (`_log_step`, without the wall-clock
timestamp, which carries no information about the data). -/
structure LogEntry where
  step : String
  details : String
deriving DecidableEq

/-- `_handle_missing_values`, returning the cleaned dataframe, the log
entries appended, and the list of imputed column names (the keys of
`missing_info`, numerical ones first, in dataframe order). -/
def handle_missing_values_log (cfg : Config) (ft : FeatureTypes)
    (df : DataFrame) : DataFrame × List LogEntry × List String :=
  let missingNames := missingColsOf df
  if missingNames.isEmpty then
    (df, [⟨"Missing Values Check", "No missing values found"⟩], [])
  else
    let numericalMissing :=
      missingNames.filter (fun c => ft.numerical_features.contains c)
    let categoricalMissing :=
      missingNames.filter (fun c => ft.categorical_features_available.contains c)
    let imputed := numericalMissing ++ categoricalMissing
    let dfClean := df.map (imputeColumn cfg ft missingNames)
    (dfClean,
     [⟨"Missing Values Detection",
        "Found missing values in " ++ toString missingNames.length ++ " features"⟩,
      ⟨"Missing Values Handling",
        "Imputed " ++ toString imputed.length ++ " features"⟩],
     imputed)

/-- The dataframe produced by `_handle_missing_values`. -/
def handle_missing_values (cfg : Config) (ft : FeatureTypes)
    (df : DataFrame) : DataFrame :=
  (handle_missing_values_log cfg ft df).1

/- ---------- Numerical matrices and external library collaborators ---------- -/

/-- A numpy matrix: list of rows. -/
abbrev Matrix := List (List ℚ)

/-- Column `i` of a matrix (`X[:, i]`). -/
def matCol (X : Matrix) (i : ℕ) : List ℚ :=
  X.map (fun row => row.getD i 0)

/-- `X.shape[1]` (width of the first row; all rows are built with equal
width by the pipeline). -/
def matWidth (X : Matrix) : ℕ :=
  (X.headD []).length

/-- `np.hstack`: concatenate two matrices row-wise. -/
def hstack (A B : Matrix) : Matrix :=
  List.zipWith (fun r s => r ++ s) A B

/-- An `n × 0` matrix (`np.array([]).reshape(n, 0)`). -/
def zeroWidthMatrix (n : ℕ) : Matrix :=
  (List.range n).map (fun _ => [])

/-- Matrix dimensions: row count and the length of every row. -/
def dims (X : Matrix) : ℕ × List ℕ :=
  (X.length, X.map List.length)

/-- `df[cols].values`: the named columns as a numeric matrix.  Cells
that are not numbers are mapped to 0 (the pipeline only extracts
numeric columns after imputation). -/
def cellToQ : Cell → ℚ
  | some (CellVal.num q) => q
  | some (CellVal.str _) => 0
  | none => 0

def extractMatrix (df : DataFrame) (cols : List String) : Matrix :=
  let sub := selectCols df cols
  (List.range (nrows df)).map (fun i =>
    sub.map (fun c => cellToQ (c.values.getD i none)))

/-- Rebuild a dataframe from a matrix and column names
(`pd.DataFrame(X, columns=names)`); all columns numeric, no missing. -/
def matrixToDF (colNames : List String) (X : Matrix) : DataFrame :=
  colNames.enum.map (fun p =>
    ⟨p.2, Dtype.numeric, X.map (fun row => some (CellVal.num (row.getD p.1 0)))⟩)

/-- The statistical primitives the pipeline invokes but does not
implement (scipy / scikit-learn); each fitted object is modelled by the
transform function it provides afterwards. -/
structure Externals where
  skewOf : List ℚ → ℚ
  powerFitTransform : Matrix → Matrix × (Matrix → Matrix)
  standardScaler : Matrix → Matrix × (Matrix → Matrix)
  robustScaler : Matrix → Matrix × (Matrix → Matrix)
  minmaxScaler : Matrix → Matrix × (Matrix → Matrix)
  onehotFit : Bool → DataFrame → Matrix × List String × (DataFrame → Matrix)
  pcaFullRatios : Matrix → List ℚ
  pcaFitN : ℕ → Matrix → Matrix × (Matrix → Matrix)
  tsneFitTransform : ℕ → ℕ → ℕ → Matrix → Matrix

/- ---------- Skew reduction (`_apply_power_transformation`) ---------- -/

/-- `_apply_power_transformation`: skip when disabled; otherwise compute
the indices of columns whose absolute skewness meets the threshold; if
none qualify skip, else fit the power transform on the whole matrix and
apply it to every column jointly. -/
def apply_power_transformation (ext : Externals) (cfg : Config)
    (X : Matrix) (featureNames : List String) :
    Matrix × Option (Matrix → Matrix) :=
  if !cfg.apply_power_transform then (X, none)
  else
    let highSkew := (List.range featureNames.length).filter
      (fun i => decide (cfg.skewness_threshold ≤ |ext.skewOf (matCol X i)|))
    if highSkew.isEmpty then (X, none)
    else
      let r := ext.powerFitTransform X
      (r.1, some r.2)

/- ---------- Scaling (`_apply_scaling`) ---------- -/

/-- Result of `_apply_scaling`: scaled matrix, fitted scaler (as its
transform function), the scaler class name, and whether the
unknown-method warning fired. -/
structure ScalingResult where
  X : Matrix
  scalerTransform : Matrix → Matrix
  scalerClass : String
  warned : Bool

/-- `_apply_scaling`: pick the scaler by configured name, falling back
to `StandardScaler` with a warning on an unknown name; fit and apply. -/
def apply_scaling (ext : Externals) (cfg : Config) (X : Matrix) : ScalingResult :=
  if cfg.scaling_method == "standard" then
    let r := ext.standardScaler X
    ⟨r.1, r.2, "StandardScaler", false⟩
  else if cfg.scaling_method == "robust" then
    let r := ext.robustScaler X
    ⟨r.1, r.2, "RobustScaler", false⟩
  else if cfg.scaling_method == "minmax" then
    let r := ext.minmaxScaler X
    ⟨r.1, r.2, "MinMaxScaler", false⟩
  else
    let r := ext.standardScaler X
    ⟨r.1, r.2, "StandardScaler", true⟩

/- ---------- Categorical encoding (`_encode_categorical_features`) ---------- -/

/-- `_encode_categorical_features`: empty column list or an unsupported
encoding method yields a zero-width matrix and no fitted encoder;
`onehot` fits the external encoder on the selected columns. -/
def encode_categorical_features (ext : Externals) (cfg : Config)
    (df : DataFrame) (categoricalFeatures : List String) :
    Matrix × List String × Option (DataFrame → Matrix) :=
  if categoricalFeatures.isEmpty then
    (zeroWidthMatrix (nrows df), [], none)
  else if cfg.categorical_encoding == "onehot" then
    let r := ext.onehotFit cfg.drop_first_category (selectCols df categoricalFeatures)
    (r.1, r.2.1, some r.2.2)
  else
    (zeroWidthMatrix (nrows df), [], none)

/- ---------- Dimensionality reduction (`_apply_dimensionality_reduction`) ---------- -/

/-- Cumulative explained variance of the first `k` components. -/
def cumVar (ratios : List ℚ) (k : ℕ) : ℚ :=
  (ratios.take k).sum

/-- The list `np.cumsum(ratios)`. -/
def cumSums (ratios : List ℚ) : List ℚ :=
  (List.range ratios.length).map (fun i => cumVar ratios (i + 1))

/-- Index of the first `true`, as `np.argmax` computes it on a boolean
array: first satisfying index, 0 when none satisfies. -/
def firstTrueIdx (p : α → Bool) : List α → ℕ
  | [] => 0
  | x :: xs => if p x then 0 else firstTrueIdx p xs + 1

/-- `np.argmax` on an all-false array is 0; re-clamp. -/
def argmaxGe (ratios : List ℚ) (target : ℚ) : ℕ :=
  let l := cumSums ratios
  let i := firstTrueIdx (fun v => decide (target ≤ v)) l
  if i < l.length then i else 0

/-- Component count chosen by the explained-variance branch:
`np.argmax(cumsum >= target) + 1`, then `max(·, min_components)`. -/
def chooseNComponents (ratios : List ℚ) (target : ℚ) (minComponents : ℕ) : ℕ :=
  max (argmaxGe ratios target + 1) minComponents

/-- Results of `_apply_dimensionality_reduction`: the PCA block (matrix,
fitted projection, component count) when PCA is enabled, and the t-SNE
embedding when t-SNE is enabled. -/
structure DimRedResult where
  pcaBlock : Option (Matrix × (Matrix → Matrix) × ℕ)
  tsneBlock : Option Matrix

/-- `_apply_dimensionality_reduction`: for a float target ≤ 1.0, fit a
full-rank PCA for the variance curve, choose the component count, refit
at that count; for a float > 1.0 truncate to an integer count; for an
integer target use it directly.  t-SNE runs on the PCA output when
available, with perplexity capped at `(len(X) - 1) // 3`. -/
def apply_dimensionality_reduction (ext : Externals) (cfg : Config)
    (X : Matrix) : DimRedResult :=
  let pcaRes :=
    if cfg.apply_pca then
      if cfg.pca_n_components_is_float then
        if cfg.pca_n_components ≤ 1 then
          let ratios := ext.pcaFullRatios X
          let n := chooseNComponents ratios cfg.pca_n_components cfg.pca_min_components
          let r := ext.pcaFitN n X
          some (r.1, r.2, n)
        else
          let n := cfg.pca_n_components.floor.toNat
          let r := ext.pcaFitN n X
          some (r.1, r.2, n)
      else
        let n := cfg.pca_n_components.floor.toNat
        let r := ext.pcaFitN n X
        some (r.1, r.2, n)
    else none
  let tsneRes :=
    if cfg.apply_tsne then
      let XforTsne := match pcaRes with
        | some p => p.1
        | none => X
      some (ext.tsneFitTransform cfg.tsne_n_components
        (min cfg.tsne_perplexity ((X.length - 1) / 3)) cfg.tsne_random_state XforTsne)
    else none
  ⟨pcaRes, tsneRes⟩

/-- Output column names of the PCA block. -/
def pcaColNames (n : ℕ) : List String :=
  (List.range n).map (fun i => "PCA_" ++ toString (i + 1))

/-- Output column names of the t-SNE block. -/
def tsneColNames (n : ℕ) : List String :=
  (List.range n).map (fun i => "t-SNE_" ++ toString (i + 1))

/- ---------- Pipeline state and orchestration ---------- -/

/-- The mutable state of `ESGPreprocessingPipeline`: configuration,
fitted flag, the frozen feature-name bookkeeping (`feature_names_`) and
the fitted stage objects, each modelled by its transform function. -/
structure PipelineState where
  config : Config
  fitted : Bool
  featNumerical : List String
  featCategorical : List String
  featCategoricalEncoded : List String
  featCombined : List String
  power_transformer : Option (Matrix → Matrix)
  scaler : Option (Matrix → Matrix)
  scalerClass : String
  categorical_encoder : Option (DataFrame → Matrix)
  pcaProj : Option (Matrix → Matrix)
  tsneFitted : Bool

/-- `__init__`: unfitted state with empty bookkeeping. -/
def initState (cfg : Config) : PipelineState :=
  { config := cfg
    fitted := false
    featNumerical := []
    featCategorical := []
    featCategoricalEncoded := []
    featCombined := []
    power_transformer := none
    scaler := none
    scalerClass := ""
    categorical_encoder := none
    pcaProj := none
    tsneFitted := false }

/-- The `complete` variant: the cleaned dataframe plus the scaled
columns (suffixed `_scaled`) plus PCA and t-SNE columns. -/
def completeVariant (dfClean : DataFrame) (numerical : List String)
    (Xscaled : Matrix) (dr : DimRedResult) : DataFrame :=
  dfClean
    ++ matrixToDF (numerical.map (fun c => c ++ "_scaled")) Xscaled
    ++ (match dr.pcaBlock with
        | some p => matrixToDF (pcaColNames (matWidth p.1)) p.1
        | none => [])
    ++ (match dr.tsneBlock with
        | some t => matrixToDF (tsneColNames (matWidth t)) t
        | none => [])

/-- Steps 3–8 of `fit_transform` plus result assembly and state capture,
taking the already-imputed dataframe.  Note `'power_transformed'` is
always present: `_apply_power_transformation` returns the input matrix
(never `None`) when it skips, so the `is not None` guard always holds. -/
def fitRest (ext : Externals) (st : PipelineState) (ft : FeatureTypes)
    (dfClean : DataFrame) : PipelineState × List (String × DataFrame) :=
  let cfg := st.config
  let numerical := ft.numerical_features
  let categorical := ft.categorical_features_available
  let Xnumerical := extractMatrix dfClean numerical
  let pt := apply_power_transformation ext cfg Xnumerical numerical
  let sc := apply_scaling ext cfg pt.1
  let Xscaled := sc.X
  let enc := encode_categorical_features ext cfg dfClean categorical
  let Xcategorical := enc.1
  let categoricalNames := enc.2.1
  let hasCat := 0 < matWidth Xcategorical
  let Xcombined := if hasCat then hstack Xscaled Xcategorical else Xscaled
  let combinedNames := if hasCat then numerical ++ categoricalNames else numerical
  let dr := apply_dimensionality_reduction ext cfg Xcombined
  let results :=
    [("power_transformed", matrixToDF numerical pt.1),
     ("scaled", matrixToDF numerical Xscaled),
     ("combined", matrixToDF combinedNames Xcombined)]
    ++ (if hasCat then [("categorical_encoded", matrixToDF categoricalNames Xcategorical)] else [])
    ++ (match dr.pcaBlock with
        | some p => [("pca", matrixToDF (pcaColNames (matWidth p.1)) p.1)]
        | none => [])
    ++ (match dr.tsneBlock with
        | some t => [("tsne", matrixToDF (tsneColNames (matWidth t)) t)]
        | none => [])
    ++ [("complete", completeVariant dfClean numerical Xscaled dr)]
  let st' : PipelineState :=
    { st with
      fitted := true
      featNumerical := numerical
      featCategorical := categorical
      featCategoricalEncoded := categoricalNames
      featCombined := combinedNames
      power_transformer := pt.2
      scaler := some sc.scalerTransform
      scalerClass := sc.scalerClass
      categorical_encoder := enc.2.2
      pcaProj := dr.pcaBlock.map (fun p => p.2.1)
      tsneFitted := dr.tsneBlock.isSome }
  (st', results)

/-- `fit_transform`: identify feature types, impute, then run the
remaining stages; returns the updated state and the variant mapping. -/
def fit_transform (ext : Externals) (st : PipelineState) (df : DataFrame) :
    PipelineState × List (String × DataFrame) :=
  let ft := identify_feature_types st.config df
  fitRest ext st ft (handle_missing_values st.config ft df)

/-- What `transform` returns on success: the variant mapping, plus the
column names its internal imputation step reported as imputed (the
observable `missing_info` log content). -/
structure TransformOutput where
  results : List (String × DataFrame)
  imputedCols : List String

/-- The post-imputation part of `transform`: extract the *persisted*
numerical columns, apply the persisted power transform and scaler,
encode the *persisted* categorical columns, recombine, and apply the
persisted PCA projection when one was fitted.  Accessing `self.scaler`
on an unfitted slot is the `AttributeError` path, modelled as an error. -/
def transformRest (_ext : Externals) (st : PipelineState)
    (dfClean : DataFrame) (imputed : List String) :
    Except String TransformOutput :=
  let numerical := st.featNumerical
  let Xnumerical0 := extractMatrix dfClean numerical
  let Xnumerical := match st.power_transformer with
    | some p => p Xnumerical0
    | none => Xnumerical0
  match st.scaler with
  | none => Except.error "scaler attribute is not set"
  | some sc =>
    let Xscaled := sc Xnumerical
    let Xcombined := match st.categorical_encoder with
      | some enc => hstack Xscaled (enc (selectCols dfClean st.featCategorical))
      | none => Xscaled
    let base :=
      [("scaled", matrixToDF numerical Xscaled),
       ("combined", matrixToDF st.featCombined Xcombined)]
    let withPca := match st.pcaProj with
      | some p =>
        let Xp := p Xcombined
        base ++ [("pca", matrixToDF (pcaColNames (matWidth Xp)) Xp)]
      | none => base
    Except.ok ⟨withPca, imputed⟩

/-- `transform`: raises when the pipeline is not fitted; otherwise
re-identifies feature types on the new data, imputes with those *fresh*
lists, and runs the persisted stages. -/
def transform (ext : Externals) (st : PipelineState) (df : DataFrame) :
    Except String TransformOutput :=
  if !st.fitted then
    Except.error "Pipeline must be fitted before transforming new data"
  else
    let ft := identify_feature_types st.config df
    let hmv := handle_missing_values_log st.config ft df
    transformRest ext st hmv.1 hmv.2.2

/-- The imputed-column names reported by a successful `transform` call
(empty when the call errors). -/
def transformImputedCols (ext : Externals) (st : PipelineState)
    (df : DataFrame) : List String :=
  match transform ext st df with
  | Except.ok o => o.imputedCols
  | Except.error _ => []

/-- Column names of a named variant of a `transform` result. -/
def variantCols (out : TransformOutput) (variant : String) : List String :=
  match out.results.find? (fun p => p.1 == variant) with
  | some p => p.2.colNames
  | none => []

/-- What `save_pipeline` writes: the primary record plus which stage
objects exist (each serialized separately, only when present). -/
structure SavedPipeline where
  config : Config
  featNumerical : List String
  featCategorical : List String
  featCategoricalEncoded : List String
  featCombined : List String
  fitted : Bool
  hasPowerTransformer : Bool
  hasScaler : Bool
  hasEncoder : Bool
  hasPca : Bool
  hasTsne : Bool

/-- `save_pipeline`: raises when the pipeline is not fitted; otherwise
serializes the state. -/
def save_pipeline (st : PipelineState) : Except String SavedPipeline :=
  if !st.fitted then
    Except.error "Pipeline must be fitted before saving"
  else
    Except.ok
      { config := st.config
        featNumerical := st.featNumerical
        featCategorical := st.featCategorical
        featCategoricalEncoded := st.featCategoricalEncoded
        featCombined := st.featCombined
        fitted := st.fitted
        hasPowerTransformer := st.power_transformer.isSome
        hasScaler := st.scaler.isSome
        hasEncoder := st.categorical_encoder.isSome
        hasPca := st.pcaProj.isSome
        hasTsne := st.tsneFitted }

/- ---------- Output validation (`validate_output`) ---------- -/

/-- Per-column mean check of the scaled variant:
`(abs(means) < 0.1).all()`; a column with no observed number has mean
NaN, and NaN comparisons are false. -/
def meanCheck (df : DataFrame) : Bool :=
  df.all (fun c =>
    match meanQ (numericVals c) with
    | some m => decide (|m| < 1 / 10)
    | none => false)

/-- Sample variance (pandas `std` uses ddof=1); `none` when fewer than
two observed values (pandas std is NaN there). -/
def sampleVar (l : List ℚ) : Option ℚ :=
  if l.length ≤ 1 then none
  else
    let m := l.sum / (l.length : ℚ)
    some ((l.map (fun x => (x - m) ^ 2)).sum / ((l.length : ℚ) - 1))

/-- Per-column standard-deviation check `(abs(stds - 1.0) < 0.1).all()`,
stated on the variance: for `s ≥ 0`, `|s - 1| < 1/10` holds exactly when
`81/100 < s^2 < 121/100`, so the check is computed on `s^2` to stay in
`ℚ`. -/
def stdCheck (df : DataFrame) : Bool :=
  df.all (fun c =>
    match sampleVar (numericVals c) with
    | some v => decide (81 / 100 < v ∧ v < 121 / 100)
    | none => false)

/-- `validate_output`.  Faithful to the code: when the missing-values
toggle is off the function returns the (empty) result dictionary at
once, running no other check.  Otherwise: one `_no_missing` entry per
variant except `tsne`; the two scaling-moment entries when a `scaled`
variant exists, the range toggle is on and the fitted scaler is a
`StandardScaler`; one `_shape_consistent` entry per variant (first
variant as baseline) when the shape toggle is on. -/
def validate_output (st : PipelineState) (results : List (String × DataFrame)) :
    List (String × Bool) :=
  if !st.config.check_missing_values then []
  else
    let missingChecks :=
      (results.filter (fun p => p.1 != "tsne")).map
        (fun p => (p.1 ++ "_no_missing", p.2.totalMissing == 0))
    let rangeChecks :=
      if (results.find? (fun p => p.1 == "scaled")).isSome
          && st.config.check_feature_ranges then
        if st.scalerClass == "StandardScaler" then
          let scaled := ((results.find? (fun p => p.1 == "scaled")).map Prod.snd).getD []
          [("scaled_mean_centered", meanCheck scaled),
           ("scaled_unit_variance", stdCheck scaled)]
        else []
      else []
    let shapeChecks :=
      if st.config.check_shape_consistency then
        match results with
        | [] => []
        | (_, d0) :: _ =>
          results.map (fun p => (p.1 ++ "_shape_consistent", nrows p.2 == nrows d0))
      else []
    missingChecks ++ rangeChecks ++ shapeChecks

/- ---------- Object store: the caller's dataframe under mutation ---------- -/

/-- A store of live dataframe objects; a reference is an index. -/
abbrev Store := List DataFrame

def storeGet (s : Store) (r : ℕ) : DataFrame :=
  s.getD r []

/-- Allocate a fresh object (`df.copy()` allocates). -/
def storeAlloc (s : Store) (df : DataFrame) : Store × ℕ :=
  (s ++ [df], s.length)

/-- `_handle_missing_values` against the store: copy the argument
dataframe, then perform all `fillna(..., inplace=True)` writes on the
copy; returns the store and a reference to the copy. -/
def handle_missing_values_eff (cfg : Config) (ft : FeatureTypes)
    (s : Store) (r : ℕ) : Store × ℕ :=
  let df := storeGet s r
  let a := storeAlloc s df
  (a.1.set a.2 (handle_missing_values cfg ft df), a.2)

/-- `fit_transform` against the store: the only writes to existing
objects happen inside the imputation stage, which works on a copy; the
remaining stages read the copy and build fresh objects. -/
def fit_transform_eff (ext : Externals) (st : PipelineState)
    (s : Store) (r : ℕ) : Store × PipelineState × List (String × DataFrame) :=
  let df := storeGet s r
  let ft := identify_feature_types st.config df
  let h := handle_missing_values_eff st.config ft s r
  let pr := fitRest ext st ft (storeGet h.1 h.2)
  (h.1, pr.1, pr.2)

/-- `transform` against the store. -/
def transform_eff (ext : Externals) (st : PipelineState)
    (s : Store) (r : ℕ) : Store × Except String TransformOutput :=
  if !st.fitted then
    (s, Except.error "Pipeline must be fitted before transforming new data")
  else
    let df := storeGet s r
    let ft := identify_feature_types st.config df
    let hmv := handle_missing_values_log st.config ft df
    let h := handle_missing_values_eff st.config ft s r
    (h.1, transformRest ext st (storeGet h.1 h.2) hmv.2.2)

/- ---------- Concrete instances used by witnesses and counterexamples ---------- -/

/-- A concrete, trivial instantiation of the external statistical
library: every fit returns the identity transform, skewness is 0, the
encoder produces a zero-width matrix, the variance curve is empty. -/
def extTriv : Externals :=
  { skewOf := fun _ => 0
    powerFitTransform := fun X => (X, fun Y => Y)
    standardScaler := fun X => (X, fun Y => Y)
    robustScaler := fun X => (X, fun Y => Y)
    minmaxScaler := fun X => (X, fun Y => Y)
    onehotFit := fun _ df => (zeroWidthMatrix (nrows df), [], fun d => zeroWidthMatrix (nrows d))
    pcaFullRatios := fun _ => []
    pcaFitN := fun _ X => (X, fun Y => Y)
    tsneFitTransform := fun _ _ _ X => X }

/-- The default configuration of `_load_config`, with the optional
stages (power transform, PCA, t-SNE) switched off so that concrete runs
stay small. -/
def cfgBase : Config :=
  { missing_strategy_numerical := "median"
    missing_strategy_categorical := "most_frequent"
    scaling_method := "standard"
    apply_power_transform := false
    skewness_threshold := 1
    categorical_encoding := "onehot"
    drop_first_category := true
    identifier_features := ["CompanyID", "CompanyName", "Year"]
    apply_pca := false
    pca_n_components_is_float := true
    pca_n_components := 19 / 20
    pca_min_components := 5
    apply_tsne := false
    tsne_n_components := 2
    tsne_perplexity := 30
    tsne_random_state := 42
    check_missing_values := true
    check_feature_ranges := true
    check_shape_consistency := true }

/-- Fit-time dataframe: one numerical column, no missing values. -/
def dfFit : DataFrame :=
  [⟨"A", Dtype.numeric, [some (CellVal.num 1), some (CellVal.num 2), some (CellVal.num 3)]⟩]

/-- Transform-time dataframe: the fitted column `A` plus a new
numerical column `B` containing a missing value. -/
def dfNew : DataFrame :=
  [⟨"A", Dtype.numeric, [some (CellVal.num 4), some (CellVal.num 5)]⟩,
   ⟨"B", Dtype.numeric, [some (CellVal.num 1), none]⟩]

/-- A dataframe whose only missing value sits in a numeric identifier
column (`Year`), which belongs to neither feature list. -/
def dfYearGap : DataFrame :=
  [⟨"Year", Dtype.numeric, [some (CellVal.num 2020), none]⟩,
   ⟨"Revenue", Dtype.numeric, [some (CellVal.num 5), some (CellVal.num 7)]⟩]

/-- The pipeline state after fitting on `dfFit`. -/
def stFitted : PipelineState :=
  (fit_transform extTriv (initState cfgBase) dfFit).1

/-- A dataframe with a missing value in a listed numerical column and a
missing value in a listed categorical column. -/
def dfMixedGap : DataFrame :=
  [⟨"Revenue", Dtype.numeric, [some (CellVal.num 5), none, some (CellVal.num 7)]⟩,
   ⟨"Industry", Dtype.object,
     [some (CellVal.str "Tech"), none, some (CellVal.str "Tech")]⟩]

/-- Total missing-value count restricted to the columns that belong to
the numerical or categorical feature list. -/
def missingInListed (ft : FeatureTypes) (df : DataFrame) : ℕ :=
  ((df.filter (fun c => ft.numerical_features.contains c.name
      || ft.categorical_features_available.contains c.name)).map Column.missingCount).sum

/-- `k` is the smallest component count (at least one, at most the
number of components) whose cumulative explained variance meets or
exceeds the target. -/
def IsLeastReaching (ratios : List ℚ) (target : ℚ) (k : ℕ) : Prop :=
  1 ≤ k ∧ k ≤ ratios.length ∧ target ≤ cumVar ratios k ∧
    ∀ j, 1 ≤ j → j ≤ ratios.length → target ≤ cumVar ratios j → k ≤ j

/-- External library instance whose full-rank PCA fit reports the
explained-variance curve 0.9, 0.08, 0.01, 0.01; 95% is reached at 2
components. -/
def extC3 : Externals :=
  { extTriv with pcaFullRatios := fun _ => [9/10, 2/25, 1/100, 1/100] }

def cfgC3 : Config := { cfgBase with apply_pca := true }

def cfgPT : Config := { cfgBase with apply_power_transform := true }

def cfgFoo : Config := { cfgBase with scaling_method := "foo" }

/-- Configuration with the missing-values validation toggle off (and
the other two toggles on). -/
def cfgNoMissingCheck : Config := { cfgBase with check_missing_values := false }

/-- A state whose fitted scaler is recorded as a `StandardScaler`, as
`fit_transform` leaves it under the default configuration. -/
def stStd : PipelineState :=
  { initState cfgBase with scalerClass := "StandardScaler" }

/- ---------- Helper lemmas ---------- -/

theorem matrixToDF_colNames (colNames : List String) (X : Matrix) :
    (matrixToDF colNames X).colNames = colNames := by
  unfold matrixToDF DataFrame.colNames
  rw [List.map_map]
  have h : (Column.name ∘ fun p : ℕ × String =>
      Column.mk p.2 Dtype.numeric (X.map (fun row => some (CellVal.num (row.getD p.1 0))))) =
      Prod.snd := rfl
  rw [h, List.enum_map_snd]

theorem Column.fillna_name (c : Column) (v : CellVal) : (c.fillna v).name = c.name := rfl

theorem Column.fillna_missingCount (c : Column) (v : CellVal) :
    (c.fillna v).missingCount = 0 := by
  simp only [Column.fillna, Column.missingCount]
  induction c.values with
  | nil => rfl
  | cons x xs ih =>
    cases x <;> simpa [List.filter] using ih

theorem imputeColumn_name (cfg : Config) (ft : FeatureTypes)
    (missingNames : List String) (c : Column) :
    (imputeColumn cfg ft missingNames c).name = c.name := by
  unfold imputeColumn
  split
  · split <;> split <;> rfl
  · split <;> rfl

theorem sortQ_length (l : List ℚ) : (sortQ l).length = l.length := by
  have key : ∀ (q : ℚ) (s : List ℚ), (insertSorted q s).length = s.length + 1 := by
    intro q s
    induction s with
    | nil => rfl
    | cons x xs ih =>
      simp only [insertSorted]
      split
      · rfl
      · simpa [List.length_cons] using ih
  induction l with
  | nil => rfl
  | cons x xs ih => simp [sortQ, List.foldr] at ih ⊢; rw [key]; omega

theorem medianQ_isSome (l : List ℚ) (h : l ≠ []) : (medianQ l).isSome = true := by
  unfold medianQ
  have hlen : (sortQ l).length ≠ 0 := by
    rw [sortQ_length]
    simpa using List.length_pos.mpr h |>.ne'
  simp only [hlen, if_false]
  split <;> rfl

theorem meanQ_isSome (l : List ℚ) (h : l ≠ []) : (meanQ l).isSome = true := by
  unfold meanQ
  have : l.length ≠ 0 := by simpa using List.length_pos.mpr h |>.ne'
  simp [this]

theorem numericFillValue_isSome (strategy : String) (c : Column)
    (h : numericVals c ≠ []) : (numericFillValue strategy c).isSome = true := by
  unfold numericFillValue
  split
  · simpa [Option.isSome_map] using medianQ_isSome _ h
  · split
    · simpa [Option.isSome_map] using meanQ_isSome _ h
    · rfl

theorem firstTrueIdx_spec {α : Type} (p : α → Bool) (d : α) :
    ∀ (l : List α) (i : ℕ), i < l.length → p (l.getD i d) = true →
      (∀ j, j < i → p (l.getD j d) = false) → firstTrueIdx p l = i := by
  intro l
  induction l with
  | nil => intro i hi; simp at hi
  | cons x xs ih =>
    intro i hi hp hbefore
    cases i with
    | zero =>
      simp only [List.getD_cons_zero] at hp
      simp [firstTrueIdx, hp]
    | succ i =>
      have hx : p x = false := by
        have := hbefore 0 (Nat.succ_pos i)
        simpa using this
      simp only [firstTrueIdx, hx, if_false]
      have hlen : i < xs.length := by simpa using hi
      have hp' : p (xs.getD i d) = true := by simpa using hp
      have hb' : ∀ j, j < i → p (xs.getD j d) = false := by
        intro j hj
        have := hbefore (j + 1) (by omega)
        simpa using this
      simp [ih i hlen hp' hb']

theorem cumSums_length (ratios : List ℚ) : (cumSums ratios).length = ratios.length := by
  simp [cumSums]

theorem cumSums_getD (ratios : List ℚ) (i : ℕ) (h : i < ratios.length) :
    (cumSums ratios).getD i 0 = cumVar ratios (i + 1) := by
  have hlen : i < (cumSums ratios).length := by rw [cumSums_length]; exact h
  rw [List.getD_eq_getElem _ _ hlen]
  simp [cumSums]

theorem chooseNComponents_eq (ratios : List ℚ) (target : ℚ)
    (minComponents k : ℕ) (h : IsLeastReaching ratios target k) :
    chooseNComponents ratios target minComponents = max k minComponents := by
  obtain ⟨h1, h2, h3, h4⟩ := h
  have hklt : k - 1 < ratios.length := by omega
  have hp : (fun v => decide (target ≤ v)) ((cumSums ratios).getD (k - 1) 0) = true := by
    rw [cumSums_getD _ _ hklt]
    have : k - 1 + 1 = k := by omega
    rw [this]
    exact decide_eq_true h3
  have hb : ∀ j, j < k - 1 → (fun v => decide (target ≤ v)) ((cumSums ratios).getD j 0) = false := by
    intro j hj
    have hjlt : j < ratios.length := by omega
    rw [cumSums_getD _ _ hjlt]
    apply decide_eq_false
    intro hge
    have := h4 (j + 1) (by omega) (by omega) hge
    omega
  have hfirst : firstTrueIdx (fun v => decide (target ≤ v)) (cumSums ratios) = k - 1 :=
    firstTrueIdx_spec _ 0 _ (k - 1) (by rw [cumSums_length]; exact hklt) hp hb
  unfold chooseNComponents argmaxGe
  simp only [hfirst, cumSums_length]
  rw [if_pos hklt]
  congr 1
  omega

/- ---------- Claim theorems ---------- -/

/-- C3: when the configured PCA component target is a float fraction
≤ 1.0, the chosen component count is the smallest count whose
cumulative explained variance meets or exceeds that fraction, clamped
up to the configured minimum component count. -/
theorem pca_explained_variance_floor (ext : Externals) (cfg : Config)
    (X : Matrix) (k : ℕ)
    (hpca : cfg.apply_pca = true) (hfl : cfg.pca_n_components_is_float = true)
    (hle : cfg.pca_n_components ≤ 1)
    (hk : IsLeastReaching (ext.pcaFullRatios X) cfg.pca_n_components k) :
    (apply_dimensionality_reduction ext cfg X).pcaBlock =
      some ((ext.pcaFitN (max k cfg.pca_min_components) X).1,
            (ext.pcaFitN (max k cfg.pca_min_components) X).2,
            max k cfg.pca_min_components) := by
  unfold apply_dimensionality_reduction
  simp only [hpca, hfl, if_true, if_pos hle, chooseNComponents_eq _ _ _ _ hk]

/-- C3 witness: a 95% target with minimum 5 on data where 95% is
reached at 2 components yields exactly 5 components. -/
theorem pca_explained_variance_floor_witness :
    (apply_dimensionality_reduction extC3 cfgC3 [[1], [2]]).pcaBlock =
      some ((extC3.pcaFitN 5 [[1], [2]]).1, (extC3.pcaFitN 5 [[1], [2]]).2, 5) := by
  have hk : IsLeastReaching (extC3.pcaFullRatios [[1], [2]]) cfgC3.pca_n_components 2 := by
    refine ⟨by norm_num, by norm_num [extC3, extTriv], ?_, ?_⟩
    · show (19/20 : ℚ) ≤ cumVar [9/10, 2/25, 1/100, 1/100] 2
      norm_num [cumVar]
    · intro j hj1 hjlen hjt
      by_contra hcon
      have hj : j = 1 := by
        have : (extC3.pcaFullRatios [[1], [2]]).length = 4 := rfl
        omega
      subst hj
      revert hjt
      show ¬ ((19/20 : ℚ) ≤ cumVar [9/10, 2/25, 1/100, 1/100] 1)
      norm_num [cumVar]
  exact pca_explained_variance_floor extC3 cfgC3 [[1], [2]] 2 rfl rfl (by norm_num [cfgC3, cfgBase]) hk

/-- C4: skew reduction is all-or-nothing: disabled or no qualifying
column means the matrix passes through with no fitted transform; any
qualifying column means the power transform is fit on and applied to
the whole numerical matrix jointly. -/
theorem power_transform_all_or_nothing (ext : Externals) (cfg : Config)
    (X : Matrix) (featureNames : List String) :
    (cfg.apply_power_transform = false →
      apply_power_transformation ext cfg X featureNames = (X, none)) ∧
    (cfg.apply_power_transform = true →
      (∀ i, i < featureNames.length →
        |ext.skewOf (matCol X i)| < cfg.skewness_threshold) →
      apply_power_transformation ext cfg X featureNames = (X, none)) ∧
    (cfg.apply_power_transform = true →
      (∃ i, i < featureNames.length ∧
        cfg.skewness_threshold ≤ |ext.skewOf (matCol X i)|) →
      apply_power_transformation ext cfg X featureNames =
        ((ext.powerFitTransform X).1, some (ext.powerFitTransform X).2)) := by
  refine ⟨?_, ?_, ?_⟩
  · intro h
    unfold apply_power_transformation
    rw [h]
    rfl
  · intro h hall
    unfold apply_power_transformation
    rw [h]
    have hfilter : (List.range featureNames.length).filter
        (fun i => decide (cfg.skewness_threshold ≤ |ext.skewOf (matCol X i)|)) = [] := by
      apply List.filter_eq_nil_iff.mpr
      intro i hi
      simp only [List.mem_range] at hi
      simpa using not_le.mpr (hall i hi)
    simp [hfilter]
  · rintro h ⟨i, hi, hskew⟩
    unfold apply_power_transformation
    rw [h]
    have hmem : i ∈ (List.range featureNames.length).filter
        (fun j => decide (cfg.skewness_threshold ≤ |ext.skewOf (matCol X j)|)) := by
      rw [List.mem_filter]
      exact ⟨List.mem_range.mpr hi, by simpa using hskew⟩
    have hne : (List.range featureNames.length).filter
        (fun j => decide (cfg.skewness_threshold ≤ |ext.skewOf (matCol X j)|)) ≠ [] :=
      List.ne_nil_of_mem hmem
    simp [List.isEmpty_iff, hne]

/-- C4 witness: with the transform enabled and the (trivial) skew
measure below the threshold on every column, the matrix passes through
unchanged and no transform is fitted. -/
theorem power_transform_all_or_nothing_witness :
    apply_power_transformation extTriv cfgPT [[1], [2]] ["A"] = ([[1], [2]], none) :=
  (power_transform_all_or_nothing extTriv cfgPT [[1], [2]] ["A"]).2.1 rfl
    (by
      intro i hi
      show |extTriv.skewOf (matCol [[1], [2]] i)| < cfgPT.skewness_threshold
      norm_num [extTriv, cfgPT, cfgBase])

/-- C5: `transform` before fitting and `save_pipeline` before fitting
each abort immediately with an error and produce nothing. -/
theorem unfitted_transform_save_error (ext : Externals) (st : PipelineState)
    (df : DataFrame) (h : st.fitted = false) :
    transform ext st df =
      Except.error "Pipeline must be fitted before transforming new data" ∧
    save_pipeline st = Except.error "Pipeline must be fitted before saving" := by
  constructor
  · unfold transform
    rw [h]
    rfl
  · unfold save_pipeline
    rw [h]
    rfl

/-- C5 witness: a freshly initialized pipeline errors on both calls. -/
theorem unfitted_transform_save_error_witness :
    transform extTriv (initState cfgBase) dfFit =
      Except.error "Pipeline must be fitted before transforming new data" ∧
    save_pipeline (initState cfgBase) =
      Except.error "Pipeline must be fitted before saving" :=
  unfitted_transform_save_error extTriv (initState cfgBase) dfFit rfl

/-- C9: an unrecognized scaling-method name does not fail: the stage
falls back to `StandardScaler`, warns, and (the standard scaler being
shape-preserving) produces a matrix of the input's shape. -/
theorem scaling_unknown_method_fallback (ext : Externals) (cfg : Config)
    (X : Matrix)
    (h1 : cfg.scaling_method ≠ "standard") (h2 : cfg.scaling_method ≠ "robust")
    (h3 : cfg.scaling_method ≠ "minmax")
    (hshape : ∀ Y, dims (ext.standardScaler Y).1 = dims Y) :
    (apply_scaling ext cfg X).scalerClass = "StandardScaler" ∧
    (apply_scaling ext cfg X).warned = true ∧
    dims (apply_scaling ext cfg X).X = dims X := by
  have b1 : (cfg.scaling_method == "standard") = false := beq_eq_false_iff_ne.mpr h1
  have b2 : (cfg.scaling_method == "robust") = false := beq_eq_false_iff_ne.mpr h2
  have b3 : (cfg.scaling_method == "minmax") = false := beq_eq_false_iff_ne.mpr h3
  unfold apply_scaling
  rw [b1, b2, b3]
  exact ⟨rfl, rfl, hshape X⟩

/-- C9 witness: the method name "foo" falls back to `StandardScaler`
with a warning and preserves shape. -/
theorem scaling_unknown_method_fallback_witness :
    (apply_scaling extTriv cfgFoo [[1], [2]]).scalerClass = "StandardScaler" ∧
    (apply_scaling extTriv cfgFoo [[1], [2]]).warned = true ∧
    dims (apply_scaling extTriv cfgFoo [[1], [2]]).X = dims [[1], [2]] :=
  scaling_unknown_method_fallback extTriv cfgFoo [[1], [2]]
    (by decide) (by decide) (by decide) (fun Y => rfl)

/-- C7: on a dataframe with zero missing values, the imputation stage
returns the identical dataframe and records the "No missing values
found" log entry (the stage runs; it is not skipped). -/
theorem imputation_identity_when_clean (cfg : Config) (ft : FeatureTypes)
    (df : DataFrame) (h : df.totalMissing = 0) :
    handle_missing_values_log cfg ft df =
      (df, [⟨"Missing Values Check", "No missing values found"⟩], []) := by
  have hcols : missingColsOf df = [] := by
    unfold missingColsOf
    have hfil : df.filter (fun c => c.missingCount != 0) = [] := by
      apply List.filter_eq_nil_iff.mpr
      intro c hc
      have hzero : c.missingCount = 0 := by
        unfold DataFrame.totalMissing at h
        exact (List.sum_eq_zero_iff.mp h) _ (List.mem_map_of_mem _ hc)
      simp [hzero]
    rw [hfil]
    rfl
  unfold handle_missing_values_log
  rw [hcols]
  rfl

/-- C7 witness: a concrete dataframe with no missing values passes
through the stage unchanged, with the "no missing values" log entry. -/
theorem imputation_identity_when_clean_witness :
    dfFit.totalMissing = 0 ∧
    handle_missing_values_log cfgBase (identify_feature_types cfgBase dfFit) dfFit =
      (dfFit, [⟨"Missing Values Check", "No missing values found"⟩], []) :=
  ⟨by decide, imputation_identity_when_clean _ _ _ (by decide)⟩

/-- C2 counterexample: on a dataframe whose numeric identifier column
`Year` has a missing value, the imputation stage leaves that column
untouched, so the returned dataframe still has a nonzero total
missing-value count — the claim's "including in columns that belong to
neither list" universally-zero statement fails at this input. -/
theorem imputation_total_missing_cex :
    (handle_missing_values cfgBase (identify_feature_types cfgBase dfYearGap) dfYearGap).totalMissing
      ≠ 0 := by decide

/-- Any column produced by `imputeColumn` whose original had missing
values and is listed (numerical with an available fill value, or
categorical) comes out with zero missing cells. -/
theorem imputeColumn_missingCount (cfg : Config) (ft : FeatureTypes)
    (missingNames : List String) (c : Column)
    (hmem : c.missingCount ≠ 0 → missingNames.contains c.name = true)
    (hnum : c.name ∈ ft.numerical_features → c.missingCount ≠ 0 → numericVals c ≠ [])
    (hlist : c.name ∈ ft.numerical_features ∨ c.name ∈ ft.categorical_features_available) :
    (imputeColumn cfg ft missingNames c).missingCount = 0 := by
  by_cases hzero : c.missingCount = 0
  · simp only [imputeColumn]
    split
    · exact Column.fillna_missingCount _ _
    · split
      · split
        · exact Column.fillna_missingCount _ _
        · exact hzero
      · exact hzero
  · have hmc := hmem hzero
    have hmcm : c.name ∈ missingNames := by simpa using hmc
    by_cases hn : c.name ∈ ft.numerical_features
    · obtain ⟨v, hv⟩ := Option.isSome_iff_exists.mp
        (numericFillValue_isSome cfg.missing_strategy_numerical c (hnum hn hzero))
      have hcond : (missingNames.contains c.name
          && ft.numerical_features.contains c.name) = true := by
        simp [hmcm, hn]
      simp only [imputeColumn, hcond, if_true, hv]
      split
      · exact Column.fillna_missingCount _ _
      · exact Column.fillna_missingCount _ _
    · have hc := hlist.resolve_left hn
      have hcond1 : (missingNames.contains c.name
          && ft.numerical_features.contains c.name) = false := by
        simp [hn]
      have hcond2 : (missingNames.contains c.name
          && ft.categorical_features_available.contains c.name) = true := by
        simp [hmcm, hc]
      simp only [imputeColumn, hcond1, hcond2, if_false, if_true]
      exact Column.fillna_missingCount _ _

/-- C2 (amended): after the imputation stage, every column that belongs
to the numerical or categorical feature list has zero missing values
(for numerical columns the configured median/mean fill must be
computable, i.e. a column with missing values must also have at least
one observed number); columns in neither list may keep missing values. -/
theorem imputation_clears_listed_columns (cfg : Config) (ft : FeatureTypes)
    (df : DataFrame)
    (hnum : ∀ c ∈ df, c.name ∈ ft.numerical_features → c.missingCount ≠ 0 →
      numericVals c ≠ []) :
    missingInListed ft (handle_missing_values cfg ft df) = 0 := by
  unfold handle_missing_values handle_missing_values_log
  by_cases hempty : (missingColsOf df).isEmpty = true
  · simp only [hempty, if_true]
    have hall : ∀ c ∈ df, c.missingCount = 0 := by
      intro c hc
      have hnil : missingColsOf df = [] := by
        cases hv : missingColsOf df
        · rfl
        · rw [hv] at hempty; simp [List.isEmpty] at hempty
      by_contra hne
      have : c.name ∈ missingColsOf df := by
        unfold missingColsOf
        exact List.mem_map_of_mem _ (List.mem_filter.mpr ⟨hc, by simpa using hne⟩)
      rw [hnil] at this
      simp at this
    unfold missingInListed
    apply List.sum_eq_zero
    intro x hx
    obtain ⟨c, hcf, rfl⟩ := List.mem_map.mp hx
    exact hall c (List.mem_filter.mp hcf).1
  · simp only [hempty, if_false]
    unfold missingInListed
    apply List.sum_eq_zero
    intro x hx
    obtain ⟨c', hcf, rfl⟩ := List.mem_map.mp hx
    have hcf' := List.mem_filter.mp hcf
    obtain ⟨c, hcdf, rfl⟩ := List.mem_map.mp hcf'.1
    have hname := imputeColumn_name cfg ft (missingColsOf df) c
    have hlist : c.name ∈ ft.numerical_features
        ∨ c.name ∈ ft.categorical_features_available := by
      have hb := hcf'.2
      rw [hname] at hb
      simpa using hb
    apply imputeColumn_missingCount cfg ft (missingColsOf df) c ?_ (hnum c hcdf) hlist
    intro hne
    have : c.name ∈ missingColsOf df := by
      unfold missingColsOf
      exact List.mem_map_of_mem _ (List.mem_filter.mpr ⟨hcdf, by simpa using hne⟩)
    simpa using this

/-- C2 (amended) witness: a dataframe with a missing numerical entry
and a missing categorical entry, both columns listed, comes out with
zero missing values among listed columns. -/
theorem imputation_clears_listed_columns_witness :
    missingInListed
      (identify_feature_types cfgBase dfMixedGap)
      (handle_missing_values cfgBase (identify_feature_types cfgBase dfMixedGap) dfMixedGap)
      = 0 :=
  imputation_clears_listed_columns cfgBase _ dfMixedGap (by decide)

/-- C1 counterexample: after fitting on `dfFit` (fit-time lists:
numerical `["A"]`, categorical `[]`), a `transform` call on `dfNew`
imputes column `B` — a column outside the frozen fit-time lists —
because the imputation step classifies the new dataframe fresh. -/
theorem transform_imputes_fresh_columns_cex :
    stFitted.fitted = true ∧
    stFitted.featNumerical ++ stFitted.featCategorical = ["A"] ∧
    transformImputedCols extTriv stFitted dfNew = ["B"] ∧
    "B" ∉ stFitted.featNumerical ++ stFitted.featCategorical := by decide

/-- C1 (amended): once fitted, `transform` extracts and scales exactly
the frozen fit-time numerical columns (the scaled variant's columns)
and produces the frozen fit-time combined column list; the imputation
step, however, uses the fresh classification of the new dataframe, not
the frozen lists. -/
theorem transform_frozen_extraction (ext : Externals) (st : PipelineState)
    (df : DataFrame) (hf : st.fitted = true) (hs : st.scaler.isSome = true) :
    ∃ out, transform ext st df = Except.ok out ∧
      variantCols out "scaled" = st.featNumerical ∧
      variantCols out "combined" = st.featCombined ∧
      out.imputedCols = (handle_missing_values_log st.config
        (identify_feature_types st.config df) df).2.2 := by
  obtain ⟨sc, hsc⟩ := Option.isSome_iff_exists.mp hs
  unfold transform transformRest
  rw [hf, hsc]
  simp only [Bool.not_true, Bool.false_eq_true, if_false]
  cases hp : st.pcaProj with
  | none =>
    refine ⟨_, rfl, ?_, ?_, rfl⟩
    · simp [variantCols, matrixToDF_colNames]
    · simp [variantCols, matrixToDF_colNames]
  | some p =>
    refine ⟨_, rfl, ?_, ?_, rfl⟩
    · simp [variantCols, matrixToDF_colNames]
    · simp [variantCols, matrixToDF_colNames]

/-- C1 (amended) witness: at the fitted state, the scaled variant's
columns equal the frozen numerical list and the imputed columns come
from the fresh classification of the new dataframe. -/
theorem transform_frozen_extraction_witness :
    ∃ out, transform extTriv stFitted dfNew = Except.ok out ∧
      variantCols out "scaled" = stFitted.featNumerical ∧
      variantCols out "combined" = stFitted.featCombined ∧
      out.imputedCols = (handle_missing_values_log stFitted.config
        (identify_feature_types stFitted.config dfNew) dfNew).2.2 :=
  transform_frozen_extraction extTriv stFitted dfNew (by decide) (by decide)

/-- C6: a fitted pipeline's `transform` returns exactly the variants
`scaled` and `combined`, plus `pca` precisely when a PCA projection was
fitted; it never returns `complete`, `categorical_encoded`,
`power_transformed` or `tsne` variants. -/
theorem transform_variant_keys (ext : Externals) (st : PipelineState)
    (df : DataFrame) (hf : st.fitted = true) (hs : st.scaler.isSome = true) :
    ∃ out, transform ext st df = Except.ok out ∧
      out.results.map Prod.fst =
        (if st.pcaProj.isSome then ["scaled", "combined", "pca"]
         else ["scaled", "combined"]) ∧
      "complete" ∉ out.results.map Prod.fst ∧
      "categorical_encoded" ∉ out.results.map Prod.fst ∧
      "power_transformed" ∉ out.results.map Prod.fst ∧
      "tsne" ∉ out.results.map Prod.fst := by
  obtain ⟨sc, hsc⟩ := Option.isSome_iff_exists.mp hs
  unfold transform transformRest
  rw [hf, hsc]
  simp only [Bool.not_true, Bool.false_eq_true, if_false]
  cases hp : st.pcaProj with
  | none => exact ⟨_, rfl, by simp, by simp, by simp, by simp, by simp⟩
  | some p => exact ⟨_, rfl, by simp, by simp, by simp, by simp, by simp⟩

/-- C6 witness: at the concretely fitted state (no PCA configured), the
result keys are exactly `scaled` and `combined`. -/
theorem transform_variant_keys_witness :
    ∃ out, transform extTriv stFitted dfNew = Except.ok out ∧
      out.results.map Prod.fst =
        (if stFitted.pcaProj.isSome then ["scaled", "combined", "pca"]
         else ["scaled", "combined"]) ∧
      "complete" ∉ out.results.map Prod.fst ∧
      "categorical_encoded" ∉ out.results.map Prod.fst ∧
      "power_transformed" ∉ out.results.map Prod.fst ∧
      "tsne" ∉ out.results.map Prod.fst :=
  transform_variant_keys extTriv stFitted dfNew (by decide) (by decide)

/-- C8 counterexample: with the missing-values toggle off and the
shape-consistency toggle on, the validator returns the empty mapping on
a nonempty result set — the shape check does not run, so the three
checks are not independently toggleable. -/
theorem validator_master_toggle_cex :
    (initState cfgNoMissingCheck).config.check_shape_consistency = true ∧
    validate_output (initState cfgNoMissingCheck) [("scaled", dfFit)] = [] ∧
    "scaled_shape_consistent" ∉
      (validate_output (initState cfgNoMissingCheck) [("scaled", dfFit)]).map Prod.fst := by
  decide

/-- C8 (amended): the missing-values toggle is a master switch — off,
the validator returns an empty mapping and no check runs; on, the
missing-value entries appear for every non-`tsne` variant, the shape
entries appear for every variant exactly when the shape toggle is on,
and the two scaling-moment entries appear when the range toggle is on,
a `scaled` variant exists and the fitted scaler is a `StandardScaler`.
The validator always returns a name-to-boolean mapping; it never
raises. -/
theorem validate_output_toggles (st : PipelineState)
    (results : List (String × DataFrame)) :
    (st.config.check_missing_values = false → validate_output st results = []) ∧
    (st.config.check_missing_values = true →
      (∀ p ∈ results, p.1 ≠ "tsne" →
        (p.1 ++ "_no_missing") ∈ (validate_output st results).map Prod.fst) ∧
      (st.config.check_shape_consistency = true →
        ∀ p ∈ results,
          (p.1 ++ "_shape_consistent") ∈ (validate_output st results).map Prod.fst) ∧
      (st.config.check_feature_ranges = true → st.scalerClass = "StandardScaler" →
        (results.find? (fun p => p.1 == "scaled")).isSome = true →
        ("scaled_mean_centered" ∈ (validate_output st results).map Prod.fst ∧
         "scaled_unit_variance" ∈ (validate_output st results).map Prod.fst))) := by
  constructor
  · intro h
    unfold validate_output
    rw [h]
    rfl
  · intro h
    refine ⟨?_, ?_, ?_⟩
    · intro p hp hne
      unfold validate_output
      rw [h]
      simp only [Bool.not_true, Bool.false_eq_true, if_false, List.map_append]
      apply List.mem_append_left
      apply List.mem_append_left
      rw [List.map_map]
      apply List.mem_map_of_mem
      exact List.mem_filter.mpr ⟨hp, by simpa using hne⟩
    · intro hsh p hp
      unfold validate_output
      rw [h, hsh]
      simp only [Bool.not_true, Bool.false_eq_true, if_false, if_true, List.map_append]
      apply List.mem_append_right
      cases results with
      | nil => simp at hp
      | cons q qs =>
        rw [List.map_map]
        exact List.mem_map_of_mem _ hp
    · intro hr hclass hfind
      unfold validate_output
      rw [h]
      have hcond : ((results.find? (fun p => p.1 == "scaled")).isSome
          && st.config.check_feature_ranges) = true := by
        rw [hfind, hr]
        rfl
      have hbeq : (st.scalerClass == "StandardScaler") = true := by
        rw [hclass]
        rfl
      simp only [Bool.not_true, Bool.false_eq_true, if_false, hcond, hbeq, if_true,
        List.map_append]
      constructor
      · apply List.mem_append_left
        apply List.mem_append_right
        simp
      · apply List.mem_append_left
        apply List.mem_append_right
        simp

/-- C8 (amended) witness: with all three toggles on and a
`StandardScaler` recorded, the no-missing, shape and both moment
entries are present for a concrete result set. -/
theorem validate_output_toggles_witness :
    ("scaled_no_missing" ∈
      (validate_output stStd [("scaled", dfFit)]).map Prod.fst) ∧
    ("scaled_shape_consistent" ∈
      (validate_output stStd [("scaled", dfFit)]).map Prod.fst) ∧
    ("scaled_mean_centered" ∈
      (validate_output stStd [("scaled", dfFit)]).map Prod.fst) := by
  have h := validate_output_toggles stStd [("scaled", dfFit)]
  have h2 := h.2 rfl
  refine ⟨?_, ?_, ?_⟩
  · exact h2.1 ("scaled", dfFit) (by simp) (by decide)
  · exact h2.2.1 rfl ("scaled", dfFit) (by simp)
  · exact (h2.2.2 rfl rfl (by decide)).1

/-- The store write pattern of the imputation stage: allocating a copy
at the end of the store and overwriting that copy leaves every existing
reference untouched. -/
theorem store_frame (s : Store) (df dfC : DataFrame) (r : ℕ)
    (h : r < s.length) :
    ((s ++ [df]).set s.length dfC).getD r [] = s.getD r [] := by
  induction s generalizing r with
  | nil => simp at h
  | cons x xs ih =>
    cases r with
    | zero => rfl
    | succ r =>
      have hr : r < xs.length := by simpa using h
      simpa using ih r hr

/-- C10: `fit_transform` and `transform` leave the caller's dataframe
object unchanged: imputation operates on a copy, so the reference
passed in holds the same dataframe after the call as before. -/
theorem caller_dataframe_unchanged (ext : Externals) (st : PipelineState)
    (s : Store) (r : ℕ) (h : r < s.length) :
    storeGet (fit_transform_eff ext st s r).1 r = storeGet s r ∧
    storeGet (transform_eff ext st s r).1 r = storeGet s r := by
  have key : ∀ (cfg : Config) (ft : FeatureTypes),
      storeGet (handle_missing_values_eff cfg ft s r).1 r = storeGet s r := by
    intro cfg ft
    unfold handle_missing_values_eff storeAlloc storeGet
    exact store_frame s _ _ r h
  constructor
  · exact key st.config (identify_feature_types st.config (storeGet s r))
  · unfold transform_eff
    cases hf : st.fitted with
    | false => rfl
    | true =>
      simp only [Bool.not_true, Bool.false_eq_true, if_false]
      exact key st.config (identify_feature_types st.config (storeGet s r))

/-- C10 witness: a concrete store holding one dataframe is unchanged at
its reference by both effectful calls. -/
theorem caller_dataframe_unchanged_witness :
    storeGet (fit_transform_eff extTriv stFitted [dfNew] 0).1 0 = storeGet [dfNew] 0 ∧
    storeGet (transform_eff extTriv stFitted [dfNew] 0).1 0 = storeGet [dfNew] 0 :=
  caller_dataframe_unchanged extTriv stFitted [dfNew] 0 (by decide)

end ESGPipeline
